import Mathlib

/-!
Shallow embedding of the JSON schema validator in
`launch_control/utils/json/schema.py` (a Python 2 module).

Document and schema values are modelled by `JValue`.  Python numeric
values are split into `int` (Python `int`) and `num` (Python
`float`/`decimal.Decimal`, modelled as rationals); Python booleans are a
separate constructor, but — exactly as in the host language, where
`bool` is a subclass of `int` — booleans satisfy the `isinstance` tests
for `int` and for the numeric types, and compare equal to the equal
integers under `==`.

Exception classes of the source are modelled by `JError`; the textual
messages carried by the Python exceptions are elided, only the class is
kept.  The additional `outOfFuel` value models exhaustion of an explicit
recursion budget: the Python recursion is unbounded, every recursive
entry into `_validate_no_push` consumes one unit of fuel here, and
`outOfFuel` never occurs once the fuel is at least the recursion depth.

The JSON text parsing done by the `validate` entry point is delegated to
an external parser (`simplejson`) in the source and is not modelled: the
entry point here takes the two parsed value trees.
-/

/-- A JSON value as produced by the parser (a Python object tree). -/
inductive JValue where
  | str (s : String)
  | int (n : Int)
  | num (q : Rat)
  | bool (b : Bool)
  | null
  | arr (elems : List JValue)
  | obj (entries : List (String × JValue))
  deriving Repr

/-- Exception classes raised by the validator (messages elided). -/
inductive JError where
  | schemaError
  | validationError
  | notImplementedError
  | outOfFuel
  deriving Repr, DecidableEq

/-- Python dict lookup `d.get(k)` / `k in d` on a parsed JSON object
(JSON objects have unique keys). -/
def dictGet (entries : List (String × JValue)) (k : String) : Option JValue :=
  (entries.find? (fun kv => kv.1 == k)).map (fun kv => kv.2)

mutual

/-- Python `==` on JSON values: booleans compare equal to the equal
integers and rationals (`True == 1`), ints compare equal to equal
floats, dicts compare by key set and values, lists elementwise. -/
def pyEq : JValue → JValue → Bool
  | .str a, .str b => a == b
  | .int a, .int b => a == b
  | .int a, .num b => (a : Rat) == b
  | .num a, .int b => a == (b : Rat)
  | .num a, .num b => a == b
  | .bool a, .bool b => a == b
  | .bool a, .int b => (if a then (1 : Int) else 0) == b
  | .int a, .bool b => a == (if b then (1 : Int) else 0)
  | .bool a, .num b => (if a then (1 : Rat) else 0) == b
  | .num a, .bool b => a == (if b then (1 : Rat) else 0)
  | .null, .null => true
  | .arr a, .arr b => pyEqList a b
  | .obj a, .obj b => a.length == b.length && pyEqEntries a b
  | _, _ => false

/-- Elementwise Python `==` on lists. -/
def pyEqList : List JValue → List JValue → Bool
  | [], [] => true
  | x :: xs, y :: ys => pyEq x y && pyEqList xs ys
  | _, _ => false

/-- Every entry of the first dict is present with an equal value in the
second (with the length test in `pyEq` this is Python dict equality). -/
def pyEqEntries : List (String × JValue) → List (String × JValue) → Bool
  | [], _ => true
  | (k, v) :: rest, b =>
    (match dictGet b k with
     | some w => pyEq v w
     | none => false) && pyEqEntries rest b

end

/-- The raw keyword mapping wrapped by a `Schema` object. -/
abbrev SchemaDict := List (String × JValue)

/-- Accessor `Schema.__init__`: the schema definition must be a JSON object. -/
def mkSchema : JValue → Except JError SchemaDict
  | .obj entries => .ok entries
  | _ => .error .schemaError

/-- The simple type names accepted by the `type` and `disallow` accessors. -/
def simpleTypeNames : List String :=
  ["string", "number", "integer", "boolean", "object", "array", "null", "any"]

/-- The per-element loop of the `type` (and `disallow`) accessor:
nested schemas pass unexamined; other elements are first checked against
the already-seen set (Python `in`, i.e. `==`-based) and then must be one
of the simple type names. -/
def checkTypeList (seen : List JValue) : List JValue → Except JError Unit
  | [] => .ok ()
  | t :: ts =>
    match t with
    | .obj _ => checkTypeList seen ts
    | _ =>
      if seen.any (fun s => pyEq s t) then .error .schemaError
      else
        match t with
        | .str s =>
          if simpleTypeNames.contains s then checkTypeList (t :: seen) ts
          else .error .schemaError
        | _ => .error .schemaError

/-- Accessor `Schema.type`: default `"any"`; must be a string, dict or list of
those; duplicate non-dict elements and unknown simple names are schema
errors.  Returns the normalized list. -/
def getType (sd : SchemaDict) : Except JError (List JValue) :=
  let value := (dictGet sd "type").getD (.str "any")
  match value with
  | .str _ =>
    match checkTypeList [] [value] with
    | .ok _ => .ok [value]
    | .error e => .error e
  | .obj _ => .ok [value]
  | .arr l =>
    match checkTypeList [] l with
    | .ok _ => .ok l
    | .error e => .error e
  | _ => .error .schemaError

/-- Accessor `Schema.properties`: default `{}`; must be a dict. -/
def getProperties (sd : SchemaDict) : Except JError (List (String × JValue)) :=
  match (dictGet sd "properties").getD (.obj []) with
  | .obj entries => .ok entries
  | _ => .error .schemaError

/-- Accessor `Schema.items`: default `{}`; must be a list or a dict. -/
def getItems (sd : SchemaDict) : Except JError JValue :=
  let value := (dictGet sd "items").getD (.obj [])
  match value with
  | .obj _ => .ok value
  | .arr _ => .ok value
  | _ => .error .schemaError

/-- Accessor `Schema.optional`: default `False`; must be exactly `True` or `False`. -/
def getOptional (sd : SchemaDict) : Except JError Bool :=
  match (dictGet sd "optional").getD (.bool false) with
  | .bool b => .ok b
  | _ => .error .schemaError

/-- Accessor `Schema.additionalProperties`: default `{}`; must be a dict or
exactly `False` (the disallowed sentinel). -/
def getAdditionalProperties (sd : SchemaDict) : Except JError JValue :=
  let value := (dictGet sd "additionalProperties").getD (.obj [])
  match value with
  | .obj _ => .ok value
  | .bool false => .ok value
  | _ => .error .schemaError

/-- Accessor `Schema.requires`: default `{}`; must be a string or a dict. -/
def getRequires (sd : SchemaDict) : Except JError JValue :=
  let value := (dictGet sd "requires").getD (.obj [])
  match value with
  | .str _ => .ok value
  | .obj _ => .ok value
  | _ => .error .schemaError

/-- Test `isinstance(v, NUMERIC_TYPES)` where `NUMERIC_TYPES` is
`(int, float, decimal.Decimal)`: booleans are ints in the host. -/
def isNumericValue : JValue → Bool
  | .int _ => true
  | .num _ => true
  | .bool _ => true
  | _ => false

/-- Test `isinstance(v, int)`: booleans are ints in the host. -/
def isIntValue : JValue → Bool
  | .int _ => true
  | .bool _ => true
  | _ => false

/-- The integer denoted by a value satisfying `isIntValue`. -/
def intValOf : JValue → Int
  | .int n => n
  | .bool b => if b then 1 else 0
  | _ => 0

/-- Lookup for keywords whose Python default is `None`: an explicit JSON
`null` value is indistinguishable from an absent key there. -/
def getOrNone (sd : SchemaDict) (k : String) : Option JValue :=
  match dictGet sd k with
  | some .null => none
  | o => o

/-- Accessor `Schema.minimum`: `None` when absent, else must be numeric. -/
def getMinimum (sd : SchemaDict) : Except JError (Option JValue) :=
  match getOrNone sd "minimum" with
  | none => .ok none
  | some v => if isNumericValue v then .ok (some v) else .error .schemaError

/-- Accessor `Schema.maximum`: `None` when absent, else must be numeric. -/
def getMaximum (sd : SchemaDict) : Except JError (Option JValue) :=
  match getOrNone sd "maximum" with
  | none => .ok none
  | some v => if isNumericValue v then .ok (some v) else .error .schemaError

/-- Accessor `Schema.minItems`: default `0`; must be a non-negative integer. -/
def getMinItems (sd : SchemaDict) : Except JError Int :=
  let value := (dictGet sd "minItems").getD (.int 0)
  if isIntValue value then
    if intValOf value < 0 then .error .schemaError else .ok (intValOf value)
  else .error .schemaError

/-- Accessor `Schema.maxItems`: `None` when absent, else must be an integer. -/
def getMaxItems (sd : SchemaDict) : Except JError (Option Int) :=
  match getOrNone sd "maxItems" with
  | none => .ok none
  | some v => if isIntValue v then .ok (some (intValOf v)) else .error .schemaError

/-- Accessor `Schema.uniqueItems`: default `False`; must be a boolean. -/
def getUniqueItems (sd : SchemaDict) : Except JError Bool :=
  match (dictGet sd "uniqueItems").getD (.bool false) with
  | .bool b => .ok b
  | _ => .error .schemaError

/-- Accessor `Schema.pattern`: `None` when absent, else compiled as a regular
expression.  Pattern compilation is not modelled: every string is
treated as compilable (no claim exercises an invalid regex), and a
non-string value — where the host would raise a `TypeError` from
`re.compile` — is folded into the schema-error class. -/
def getPatternKw (sd : SchemaDict) : Except JError (Option String) :=
  match getOrNone sd "pattern" with
  | none => .ok none
  | some (.str s) => .ok (some s)
  | some _ => .error .schemaError

/-- Accessor `Schema.minLength`: default `0`; must be a non-negative integer. -/
def getMinLength (sd : SchemaDict) : Except JError Int :=
  let value := (dictGet sd "minLength").getD (.int 0)
  if isIntValue value then
    if intValOf value < 0 then .error .schemaError else .ok (intValOf value)
  else .error .schemaError

/-- Accessor `Schema.maxLength`: `None` when absent, else must be an integer. -/
def getMaxLength (sd : SchemaDict) : Except JError (Option Int) :=
  match getOrNone sd "maxLength" with
  | none => .ok none
  | some v => if isIntValue v then .ok (some (intValOf v)) else .error .schemaError

/-- The duplicate scan of the `enum` accessor (Python set membership,
`==`-based). -/
def checkEnumDups (seen : List JValue) : List JValue → Except JError Unit
  | [] => .ok ()
  | x :: xs =>
    if seen.any (fun s => pyEq s x) then .error .schemaError
    else checkEnumDups (x :: seen) xs

/-- Accessor `Schema.enum`: `None` when absent; must be a non-empty list without
duplicate elements. -/
def getEnum (sd : SchemaDict) : Except JError (Option (List JValue)) :=
  match getOrNone sd "enum" with
  | none => .ok none
  | some (.arr l) =>
    if l.isEmpty then .error .schemaError
    else
      match checkEnumDups [] l with
      | .ok _ => .ok (some l)
      | .error e => .error e
  | some _ => .error .schemaError

/-- Accessor `Schema.format`: `None` when absent; must be a string; only
`"date-time"` is supported, any other string raises
`NotImplementedError`. -/
def getFormat (sd : SchemaDict) : Except JError (Option String) :=
  match getOrNone sd "format" with
  | none => .ok none
  | some (.str s) =>
    if s == "date-time" then .ok (some s) else .error .notImplementedError
  | some _ => .error .schemaError

/-- The encoding-token whitelist of the `contentEncoding` accessor. -/
def encodingTokens : List String :=
  ["7bit", "8bit", "binary", "quoted-printable", "base64", "ietf-token", "x-token"]

/-- Accessor `Schema.contentEncoding`: `None` when absent; the lowercased value
must be on the whitelist (else schema error) and only `"base64"` is
supported (else `NotImplementedError`).  A non-string value — where the
host would raise an `AttributeError` from `.lower()` — is folded into
the schema-error class (no claim exercises it). -/
def getContentEncoding (sd : SchemaDict) : Except JError (Option String) :=
  match getOrNone sd "contentEncoding" with
  | none => .ok none
  | some (.str s) =>
    if encodingTokens.contains s.toLower then
      if s.toLower == "base64" then .ok (some s) else .error .notImplementedError
    else .error .schemaError
  | some _ => .error .schemaError

/-- Accessor `Schema.divisibleBy`: default `1`; an explicit `null` yields `None`;
must be numeric and non-negative. -/
def getDivisibleBy (sd : SchemaDict) : Except JError (Option JValue) :=
  let value := (dictGet sd "divisibleBy").getD (.int 1)
  match value with
  | .null => .ok none
  | v =>
    if isNumericValue v then
      if intDenies v then .error .schemaError else .ok (some v)
    else .error .schemaError
where
  /-- `value < 0` on a numeric value. -/
  intDenies : JValue → Bool
  | .int n => n < 0
  | .num q => q < 0
  | .bool _ => false
  | _ => false

/-- Accessor `Schema.disallow`: `None` when absent; same shape and validation as
the `type` accessor. -/
def getDisallow (sd : SchemaDict) : Except JError (Option (List JValue)) :=
  match getOrNone sd "disallow" with
  | none => .ok none
  | some v =>
    match v with
    | .str _ =>
      match checkTypeList [] [v] with
      | .ok _ => .ok (some [v])
      | .error e => .error e
    | .obj _ => .ok (some [v])
    | .arr l =>
      match checkTypeList [] l with
      | .ok _ => .ok (some l)
      | .error e => .error e
    | _ => .error .schemaError

/-!
The validation engine (`Validator`).  The mutable `_obj_stack` of the
Python class is threaded explicitly: every stateful method maps a stack
to the pair of the final stack and the outcome.  Note that the container
pushes inside `_validate_no_push` are NOT protected by `try/finally` in
the source, so on an error the returned stack can retain entries; this
is modelled faithfully.  `_validate`'s own push IS popped in a `finally`
clause, modelled by `pushValidate` dropping the last entry on every
outcome.
-/

/-- The type of the recursive entry `_validate_no_push` as seen by the
phase methods: stack, schema dict and object in, final stack and
outcome out. -/
abbrev Recur := List JValue → SchemaDict → JValue → List JValue × Except JError Unit

/-- Method `Validator._validate`: append the object, run `_validate_no_push`,
and pop the last stack entry in a `finally` clause (the pop happens on
success and on error alike). -/
def pushValidate (recur : Recur) (stack : List JValue) (sd : SchemaDict)
    (obj : JValue) : List JValue × Except JError Unit :=
  match recur (stack ++ [obj]) sd obj with
  | (st, r) => (st.dropLast, r)

/-- Method `Validator.JSON_TYPE_MAP` membership test: `isinstance(obj, m[name])`
for the six simple names in the map.  Python's `bool` is a subclass of
`int`, so booleans satisfy the `"integer"` and `"number"` tests.  The
names `"any"` and `"boolean"` are handled before the map lookup in
`_validate_type`; any other name would be a host `KeyError`, unreachable
because the `type` accessor has validated the names. -/
def jsonTypeMatch (name : String) (obj : JValue) : Bool :=
  if name == "string" then
    match obj with
    | .str _ => true
    | _ => false
  else if name == "number" then isNumericValue obj
  else if name == "integer" then isIntValue obj
  else if name == "object" then
    match obj with
    | .obj _ => true
    | _ => false
  else if name == "array" then
    match obj with
    | .arr _ => true
    | _ => false
  else if name == "null" then
    match obj with
    | .null => true
    | _ => false
  else false

/-- The alternative loop of `Validator._validate_type`:
`"any"` returns at once; `"boolean"` accepts exactly the two booleans
and otherwise raises immediately (it does not fall through to later
alternatives); a nested schema is validated recursively on the same
stack and its outcome — error included — ends the loop; a simple name
that matches breaks, one that does not match falls through to the next
alternative; an exhausted list raises a validation error (the `for`'s
`else` clause).  A non-string, non-dict alternative is unreachable after
the `type` accessor succeeded (the host would raise a `KeyError`). -/
def validateTypeLoop (recur : Recur) (stack : List JValue) :
    List JValue → JValue → List JValue × Except JError Unit
  | [], _ => (stack, .error .validationError)
  | t :: ts, obj =>
    match t with
    | .obj d => recur stack d obj
    | .str name =>
      if name == "any" then (stack, .ok ())
      else if name == "boolean" then
        match obj with
        | .bool _ => (stack, .ok ())
        | _ => (stack, .error .validationError)
      else if jsonTypeMatch name obj then (stack, .ok ())
      else validateTypeLoop recur stack ts obj
    | _ => validateTypeLoop recur stack ts obj

/-- Method `Validator._validate_type`: read the normalized `type` list and run
the alternative loop. -/
def validateType (recur : Recur) (stack : List JValue) (sd : SchemaDict)
    (obj : JValue) : List JValue × Except JError Unit :=
  match getType sd with
  | .error e => (stack, .error e)
  | .ok tl => validateTypeLoop recur stack tl obj

/-- Test `isinstance(parent, dict) and name in parent`. -/
def hasProperty (parent : JValue) (name : String) : Bool :=
  match parent with
  | .obj entries => (dictGet entries name).isSome
  | _ => false

/-- Method `Validator._validate_requires`: a default (`{}`) value does nothing;
with fewer than two stack entries there is no enclosing object and this
is a validation error; a string value requires the property in the
structural parent (`stack[-2]`); a dict value validates the parent
against it with a fresh validator whose stack is the current history
with the last two entries removed (`self._obj_stack[:-2]`) — the fresh
validator's stack is discarded, only its outcome propagates. -/
def validateRequires (recur : Recur) (stack : List JValue) (sd : SchemaDict)
    (_obj : JValue) : Except JError Unit :=
  match getRequires sd with
  | .error e => .error e
  | .ok rv =>
    if pyEq rv (.obj []) then .ok ()
    else if stack.length < 2 then .error .validationError
    else
      let parent := (stack.get? (stack.length - 2)).getD .null
      match rv with
      | .str name => if hasProperty parent name then .ok () else .error .validationError
      | .obj d => (recur stack.dropLast.dropLast d parent).2
      | _ => .error .schemaError

/-- The entry loop of `Validator._validate_properties`: for each declared
property, wrap its schema value (a schema error if not a dict), validate
the document value when present, and otherwise raise unless the property
schema's `optional` is true. -/
def validatePropertiesLoop (recur : Recur) :
    List JValue → List (String × JValue) → List (String × JValue) →
    List JValue × Except JError Unit
  | stack, [], _ => (stack, .ok ())
  | stack, (prop, psData) :: rest, objEntries =>
    match mkSchema psData with
    | .error e => (stack, .error e)
    | .ok psd =>
      match dictGet objEntries prop with
      | some v =>
        match pushValidate recur stack psd v with
        | (st, .ok _) => validatePropertiesLoop recur st rest objEntries
        | (st, .error e) => (st, .error e)
      | none =>
        match getOptional psd with
        | .error e => (stack, .error e)
        | .ok true => validatePropertiesLoop recur stack rest objEntries
        | .ok false => (stack, .error .validationError)

/-- The disallowed branch of `Validator._validate_additional_properties`:
every document key must be listed in `schema.properties` (the accessor
is re-read on every iteration as in the source). -/
def checkUnknownProps (sd : SchemaDict) : List (String × JValue) → Except JError Unit
  | [] => .ok ()
  | (k, _) :: rest =>
    match getProperties sd with
    | .error e => .error e
    | .ok props =>
      if (dictGet props k).isSome then checkUnknownProps sd rest
      else .error .validationError

/-- The nested-schema branch of
`Validator._validate_additional_properties`: EVERY document value —
whether or not its key is listed in `properties` — is validated against
the additional-properties schema (`for prop_value in obj.itervalues()`). -/
def validateAllValues (recur : Recur) (asd : SchemaDict) :
    List JValue → List (String × JValue) → List JValue × Except JError Unit
  | stack, [] => (stack, .ok ())
  | stack, (_, v) :: rest =>
    match pushValidate recur stack asd v with
    | (st, .ok _) => validateAllValues recur asd st rest
    | (st, .error e) => (st, .error e)

/-- Method `Validator._validate_additional_properties`: with the `False`
sentinel every unknown key is a validation error; otherwise every value
of the object is validated against the additional-properties schema. -/
def validateAdditionalProperties (recur : Recur) (stack : List JValue)
    (sd : SchemaDict) (objEntries : List (String × JValue)) :
    List JValue × Except JError Unit :=
  match getAdditionalProperties sd with
  | .error e => (stack, .error e)
  | .ok (.bool false) =>
    match checkUnknownProps sd objEntries with
    | .ok _ => (stack, .ok ())
    | .error e => (stack, .error e)
  | .ok ap =>
    match mkSchema ap with
    | .error e => (stack, .error e)
    | .ok asd => validateAllValues recur asd stack objEntries

/-- The uniform-items loop: every element against the single schema. -/
def validateEachItem (recur : Recur) (isd : SchemaDict) :
    List JValue → List JValue → List JValue × Except JError Unit
  | stack, [] => (stack, .ok ())
  | stack, x :: xs =>
    match pushValidate recur stack isd x with
    | (st, .ok _) => validateEachItem recur isd st xs
    | (st, .error e) => (st, .error e)

/-- Pairing `izip_longest(obj, schemas, fillvalue=ap)` for the tuple-items loop
(the document array is never shorter than the schema list at the call
site, so only the schema side is padded). -/
def zipWithFill (xs : List JValue) (ss : List JValue) (fill : JValue) :
    List (JValue × JValue) :=
  xs.zip (ss ++ List.replicate (xs.length - ss.length) fill)

/-- The tuple-items loop: each (element, schema value) pair wraps the
schema value (a schema error if not a dict) and validates the element. -/
def validateTupleLoop (recur : Recur) :
    List JValue → List (JValue × JValue) → List JValue × Except JError Unit
  | stack, [] => (stack, .ok ())
  | stack, (x, isData) :: rest =>
    match mkSchema isData with
    | .error e => (stack, .error e)
    | .ok isd =>
      match pushValidate recur stack isd x with
      | (st, .ok _) => validateTupleLoop recur st rest
      | (st, .error e) => (st, .error e)

/-- Sentinel test `value is False` (the disallowed sentinel test). -/
def isFalseSentinel : JValue → Bool
  | .bool b => !b
  | _ => false

/-- Method `Validator._validate_items`: a default (`{}`) value does nothing; a
dict validates every element uniformly; a list is tuple typing: a
shorter document array is a validation error; a longer one with the
disallowed sentinel is a validation error; otherwise the elements are
paired positionwise, padding with the `additionalProperties` value
(which the `izip_longest` call reads in every case).  A non-list,
non-dict value is unreachable after the `items` accessor succeeded. -/
def validateItemsPhase (recur : Recur) (stack : List JValue) (sd : SchemaDict)
    (xs : List JValue) : List JValue × Except JError Unit :=
  match getItems sd with
  | .error e => (stack, .error e)
  | .ok iv =>
    if pyEq iv (.obj []) then (stack, .ok ())
    else
      match iv with
      | .obj d => validateEachItem recur d stack xs
      | .arr ss =>
        if xs.length < ss.length then (stack, .error .validationError)
        else
          match getAdditionalProperties sd with
          | .error e => (stack, .error e)
          | .ok ap =>
            if xs.length != ss.length && isFalseSentinel ap then
              (stack, .error .validationError)
            else validateTupleLoop recur stack (zipWithFill xs ss ap)
      | _ => (stack, .error .schemaError)

/-- Method `Validator._validate_enum`: when `enum` is present the object must
compare `==`-equal to one of the enumerated values. -/
def validateEnum (sd : SchemaDict) (obj : JValue) : Except JError Unit :=
  match getEnum sd with
  | .error e => .error e
  | .ok none => .ok ()
  | .ok (some l) =>
    if l.any (fun v => pyEq obj v) then .ok () else .error .validationError

/-- Method `Validator._report_unsupported`: any recognized-but-unimplemented
keyword present with a non-default value raises `NotImplementedError`,
in the source's order.  The `divisibleBy != 1` test is Python `!=`
(`True` and `1.0` count as `1`; an explicit `null` does not). -/
def reportUnsupported (sd : SchemaDict) : Except JError Unit :=
  match getMinimum sd with
  | .error e => .error e
  | .ok (some _) => .error .notImplementedError
  | .ok none =>
  match getMaximum sd with
  | .error e => .error e
  | .ok (some _) => .error .notImplementedError
  | .ok none =>
  match getMinItems sd with
  | .error e => .error e
  | .ok n =>
  if n != 0 then .error .notImplementedError
  else
  match getMaxItems sd with
  | .error e => .error e
  | .ok (some _) => .error .notImplementedError
  | .ok none =>
  match getUniqueItems sd with
  | .error e => .error e
  | .ok true => .error .notImplementedError
  | .ok false =>
  match getPatternKw sd with
  | .error e => .error e
  | .ok (some _) => .error .notImplementedError
  | .ok none =>
  match getMinLength sd with
  | .error e => .error e
  | .ok n =>
  if n != 0 then .error .notImplementedError
  else
  match getMaxLength sd with
  | .error e => .error e
  | .ok (some _) => .error .notImplementedError
  | .ok none =>
  match getFormat sd with
  | .error e => .error e
  | .ok (some _) => .error .notImplementedError
  | .ok none =>
  match getContentEncoding sd with
  | .error e => .error e
  | .ok (some _) => .error .notImplementedError
  | .ok none =>
  match getDivisibleBy sd with
  | .error e => .error e
  | .ok none => .error .notImplementedError
  | .ok (some v) =>
  if !pyEq v (.int 1) then .error .notImplementedError
  else
  match getDisallow sd with
  | .error e => .error e
  | .ok (some _) => .error .notImplementedError
  | .ok none => .ok ()

/-- Method `Validator._validate_no_push`, with an explicit fuel budget: type
check, requires check, then the kind-dependent descent (objects push the
node, run the properties and additional-properties phases and pop —
but the pop is skipped when a phase errors, as in the source, where it
is not in a `finally` clause; arrays likewise around the items phase;
scalars run the enum check), and finally the unsupported-feature gate.
Each nested entry runs with one unit of fuel less. -/
def validateNoPush : Nat → List JValue → SchemaDict → JValue →
    List JValue × Except JError Unit
  | 0, stack, _, _ => (stack, .error .outOfFuel)
  | Nat.succ f, stack, sd, obj =>
    match validateType (validateNoPush f) stack sd obj with
    | (st1, .error e) => (st1, .error e)
    | (st1, .ok _) =>
      match validateRequires (validateNoPush f) st1 sd obj with
      | .error e => (st1, .error e)
      | .ok _ =>
        match obj with
        | JValue.obj objEntries =>
          match getProperties sd with
          | .error e => (st1 ++ [obj], .error e)
          | .ok props =>
            match validatePropertiesLoop (validateNoPush f) (st1 ++ [obj]) props objEntries with
            | (st3, .error e) => (st3, .error e)
            | (st3, .ok _) =>
              match validateAdditionalProperties (validateNoPush f) st3 sd objEntries with
              | (st4, .error e) => (st4, .error e)
              | (st4, .ok _) =>
                match reportUnsupported sd with
                | .error e => (st4.dropLast, .error e)
                | .ok _ => (st4.dropLast, .ok ())
        | JValue.arr xs =>
          match validateItemsPhase (validateNoPush f) (st1 ++ [obj]) sd xs with
          | (st3, .error e) => (st3, .error e)
          | (st3, .ok _) =>
            match reportUnsupported sd with
            | .error e => (st3.dropLast, .error e)
            | .ok _ => (st3.dropLast, .ok ())
        | _ =>
          match validateEnum sd obj with
          | .error e => (st1, .error e)
          | .ok _ =>
            match reportUnsupported sd with
            | .error e => (st1, .error e)
            | .ok _ => (st1, .ok ())

/-- Method `Validator._validate` at a given fuel. -/
def validateV (fuel : Nat) (stack : List JValue) (sd : SchemaDict)
    (obj : JValue) : List JValue × Except JError Unit :=
  pushValidate (validateNoPush fuel) stack sd obj

/-- Method `Validator.validate` (the classmethod): a fresh validator with an
empty stack runs `_validate_no_push` on the root; only the outcome is
observable (the instance is discarded). -/
def Validator.validate (fuel : Nat) (sd : SchemaDict) (obj : JValue) :
    Except JError Unit :=
  (validateNoPush fuel [] sd obj).2

/-- The module-level `validate` entry point on the already-parsed value
trees (the `simplejson.loads` calls are the external parsing
collaborator and are not modelled): wrap the schema value — a schema
error when it is not a mapping, before the document is inspected — and
run the validator. -/
def validateJson (fuel : Nat) (schemaValue : JValue) (doc : JValue) :
    Except JError Unit :=
  match mkSchema schemaValue with
  | .error e => .error e
  | .ok sd => Validator.validate fuel sd doc

/-!
Helper lemmas: reductions on the empty schema, size bounds, and the
success-preserves-stack family used by several claims.
-/

/-- Every JSON value has positive size. -/
lemma JValue.one_le_sizeOf (v : JValue) : 1 ≤ sizeOf v := by
  cases v <;> simp_arith

/-- A value stored in an object node is smaller than the node. -/
lemma sizeOf_lt_of_mem_entries {entries : List (String × JValue)}
    {kv : String × JValue} (h : kv ∈ entries) :
    sizeOf kv.2 < sizeOf (JValue.obj entries) := by
  induction entries with
  | nil => cases h
  | cons hd tl ih =>
    rcases List.mem_cons.mp h with h | h
    · subst h
      cases kv with
      | mk k v => simp_arith
    · have := ih h
      simp_arith at this ⊢
      omega

lemma validateType_nil (r : Recur) (stack : List JValue) (o : JValue) :
    validateType r stack [] o = (stack, .ok ()) := rfl

lemma validateRequires_nil (r : Recur) (stack : List JValue) (o : JValue) :
    validateRequires r stack [] o = .ok () := rfl

lemma reportUnsupported_nil : reportUnsupported [] = .ok () := rfl

lemma getProperties_nil : getProperties [] = .ok [] := rfl

lemma getAdditionalProperties_nil : getAdditionalProperties [] = .ok (.obj []) := rfl

lemma validatePropertiesLoop_nil (r : Recur) (stack : List JValue)
    (oe : List (String × JValue)) :
    validatePropertiesLoop r stack [] oe = (stack, .ok ()) := rfl

/-- Generic helper: if validating against the empty schema at fuel `f`
succeeds and preserves the stack for small objects, so does the
all-values loop on the empty additional schema. -/
lemma validateAllValues_nil_of (f : Nat)
    (hrec : ∀ obj stack, sizeOf obj ≤ f →
      validateNoPush f stack [] obj = (stack, Except.ok ())) :
    ∀ (entries : List (String × JValue)) (st : List JValue),
    (∀ kv ∈ entries, sizeOf kv.2 ≤ f) →
    validateAllValues (validateNoPush f) [] st entries = (st, .ok ()) := by
  intro entries
  induction entries with
  | nil => intro st _; rfl
  | cons hd tl ih =>
    intro st h
    have hv : sizeOf hd.2 ≤ f := h hd (List.mem_cons_self hd tl)
    have hpush : pushValidate (validateNoPush f) st [] hd.2 = (st, .ok ()) := by
      unfold pushValidate
      rw [hrec hd.2 (st ++ [hd.2]) hv]
      simp [List.dropLast_concat]
    have htl : ∀ kv ∈ tl, sizeOf kv.2 ≤ f :=
      fun kv hkv => h kv (List.mem_cons_of_mem _ hkv)
    cases hd with
    | mk k v =>
      show validateAllValues (validateNoPush f) [] st ((k, v) :: tl) = (st, .ok ())
      unfold validateAllValues
      rw [hpush]
      exact ih st htl

/-- Validating any document against the empty schema `{}` succeeds and
leaves the stack unchanged, given fuel at least the document size. -/
lemma validateNoPush_nilSchema : ∀ (f : Nat) (obj : JValue) (stack : List JValue),
    sizeOf obj ≤ f → validateNoPush f stack [] obj = (stack, .ok ()) := by
  intro f
  induction f with
  | zero =>
    intro obj stack h
    exact absurd (le_trans (JValue.one_le_sizeOf obj) h) (by omega)
  | succ f ih =>
    intro obj stack h
    cases obj with
    | str s => rfl
    | int n => rfl
    | num q => rfl
    | bool b => rfl
    | null => rfl
    | arr xs =>
      show validateNoPush (f + 1) stack [] (.arr xs) = (stack, .ok ())
      simp only [validateNoPush, validateType_nil, validateRequires_nil]
      simp [validateItemsPhase, getItems, dictGet, pyEq, pyEqEntries,
        reportUnsupported_nil, List.dropLast_concat]
    | obj entries =>
      have hsz : ∀ kv ∈ entries, sizeOf kv.2 ≤ f := by
        intro kv hkv
        have := sizeOf_lt_of_mem_entries hkv
        omega
      have hall := validateAllValues_nil_of f ih entries
        (stack ++ [JValue.obj entries]) hsz
      show validateNoPush (f + 1) stack [] (.obj entries) = (stack, .ok ())
      simp only [validateNoPush, validateType_nil, validateRequires_nil,
        getProperties_nil, validatePropertiesLoop_nil,
        validateAdditionalProperties, getAdditionalProperties_nil, mkSchema]
      rw [hall]
      simp [reportUnsupported_nil, List.dropLast_concat]

/-- Shorthand for "the callback restores the stack on success". -/
def StackOk (recur : Recur) : Prop :=
  ∀ st sd o out, recur st sd o = (out, Except.ok ()) → out = st

lemma pushValidate_ok_stack {recur : Recur} (hrec : StackOk recur)
    {st : List JValue} {sd : SchemaDict} {o : JValue} {out : List JValue}
    (h : pushValidate recur st sd o = (out, Except.ok ())) : out = st := by
  unfold pushValidate at h
  rcases heq : recur (st ++ [o]) sd o with ⟨st2, r⟩
  rw [heq] at h
  cases h
  rw [hrec _ _ _ _ heq]
  exact List.dropLast_concat ..

lemma validateTypeLoop_ok_stack {recur : Recur} (hrec : StackOk recur) :
    ∀ (tl : List JValue) (stack : List JValue) (obj : JValue) (out : List JValue),
    validateTypeLoop recur stack tl obj = (out, Except.ok ()) → out = stack := by
  intro tl
  induction tl with
  | nil =>
    intro stack obj out h
    simp [validateTypeLoop] at h
  | cons t ts ih =>
    intro stack obj out h
    cases t with
    | obj d => exact hrec _ _ _ _ h
    | str name =>
      simp only [validateTypeLoop] at h
      split at h
      · cases h; rfl
      · split at h
        · split at h
          · cases h; rfl
          · cases h
        · split at h
          · cases h; rfl
          · exact ih stack obj out h
    | int n => exact ih stack obj out h
    | num q => exact ih stack obj out h
    | bool b => exact ih stack obj out h
    | null => exact ih stack obj out h
    | arr l => exact ih stack obj out h

lemma validateType_ok_stack {recur : Recur} (hrec : StackOk recur)
    {stack : List JValue} {sd : SchemaDict} {obj : JValue} {out : List JValue}
    (h : validateType recur stack sd obj = (out, Except.ok ())) : out = stack := by
  unfold validateType at h
  split at h
  · cases h
  · exact validateTypeLoop_ok_stack hrec _ _ _ _ h

lemma validatePropertiesLoop_ok_stack {recur : Recur} (hrec : StackOk recur) :
    ∀ (props : List (String × JValue)) (stack : List JValue)
    (oe : List (String × JValue)) (out : List JValue),
    validatePropertiesLoop recur stack props oe = (out, Except.ok ()) → out = stack := by
  intro props
  induction props with
  | nil =>
    intro stack oe out h
    cases h; rfl
  | cons hd tl ih =>
    intro stack oe out h
    cases hd with
    | mk prop psData =>
      simp only [validatePropertiesLoop] at h
      split at h
      · cases h
      · split at h
        · split at h
          · rename_i st1 u heq1
            cases u
            have h1 : st1 = stack := pushValidate_ok_stack hrec heq1
            rw [ih st1 oe out h, h1]
          · cases h
        · split at h
          · cases h
          · exact ih stack oe out h
          · cases h

lemma validateAllValues_ok_stack {recur : Recur} (hrec : StackOk recur)
    {asd : SchemaDict} :
    ∀ (oe : List (String × JValue)) (stack : List JValue) (out : List JValue),
    validateAllValues recur asd stack oe = (out, Except.ok ()) → out = stack := by
  intro oe
  induction oe with
  | nil =>
    intro stack out h
    cases h; rfl
  | cons hd tl ih =>
    intro stack out h
    cases hd with
    | mk k v =>
      simp only [validateAllValues] at h
      split at h
      · rename_i st1 u heq1
        have h1 : st1 = stack := pushValidate_ok_stack hrec heq1
        rw [ih st1 out h, h1]
      · cases h

lemma validateEachItem_ok_stack {recur : Recur} (hrec : StackOk recur)
    {isd : SchemaDict} :
    ∀ (xs : List JValue) (stack : List JValue) (out : List JValue),
    validateEachItem recur isd stack xs = (out, Except.ok ()) → out = stack := by
  intro xs
  induction xs with
  | nil =>
    intro stack out h
    cases h; rfl
  | cons hd tl ih =>
    intro stack out h
    simp only [validateEachItem] at h
    split at h
    · rename_i st1 u heq1
      have h1 : st1 = stack := pushValidate_ok_stack hrec heq1
      rw [ih st1 out h, h1]
    · cases h

lemma validateTupleLoop_ok_stack {recur : Recur} (hrec : StackOk recur) :
    ∀ (pairs : List (JValue × JValue)) (stack : List JValue) (out : List JValue),
    validateTupleLoop recur stack pairs = (out, Except.ok ()) → out = stack := by
  intro pairs
  induction pairs with
  | nil =>
    intro stack out h
    cases h; rfl
  | cons hd tl ih =>
    intro stack out h
    cases hd with
    | mk x isData =>
      simp only [validateTupleLoop] at h
      split at h
      · cases h
      · split at h
        · rename_i st1 u heq1
          have h1 : st1 = stack := pushValidate_ok_stack hrec heq1
          rw [ih st1 out h, h1]
        · cases h

lemma validateAdditionalProperties_ok_stack {recur : Recur} (hrec : StackOk recur)
    {stack : List JValue} {sd : SchemaDict} {oe : List (String × JValue)}
    {out : List JValue}
    (h : validateAdditionalProperties recur stack sd oe = (out, Except.ok ())) :
    out = stack := by
  unfold validateAdditionalProperties at h
  split at h
  · cases h
  · split at h
    · cases h; rfl
    · cases h
  · split at h
    · cases h
    · exact validateAllValues_ok_stack hrec _ _ _ h

lemma validateItemsPhase_ok_stack {recur : Recur} (hrec : StackOk recur)
    {stack : List JValue} {sd : SchemaDict} {xs : List JValue} {out : List JValue}
    (h : validateItemsPhase recur stack sd xs = (out, Except.ok ())) : out = stack := by
  unfold validateItemsPhase at h
  split at h
  · cases h
  · split at h
    · cases h; rfl
    · split at h
      · exact validateEachItem_ok_stack hrec _ _ _ h
      · split at h
        · cases h
        · split at h
          · cases h
          · split at h
            · cases h
            · exact validateTupleLoop_ok_stack hrec _ _ _ h
      · cases h

/-- Successful validation restores the ancestor stack: if
`_validate_no_push` returns without an exception the stack it leaves is
the stack it was given (the leak in the source happens only on the error
path). -/
lemma validateNoPush_ok_stack :
    ∀ (fuel : Nat) (stack : List JValue) (sd : SchemaDict) (obj : JValue)
    (out : List JValue),
    validateNoPush fuel stack sd obj = (out, Except.ok ()) → out = stack := by
  intro fuel
  induction fuel with
  | zero =>
    intro stack sd obj out h
    simp [validateNoPush] at h
  | succ f ih =>
    have hrec : StackOk (validateNoPush f) := fun st sd o out h => ih st sd o out h
    intro stack sd obj out h
    cases obj with
    | obj oe =>
      simp only [validateNoPush] at h
      split at h
      · cases h
      · rename_i st1 u heq1
        cases u
        have h1 : st1 = stack := validateType_ok_stack hrec heq1
        split at h
        · cases h
        · split at h
          · cases h
          · split at h
            · cases h
            · rename_i st3 u3 heq3
              cases u3
              have h3 : st3 = st1 ++ [JValue.obj oe] :=
                validatePropertiesLoop_ok_stack hrec _ _ _ _ heq3
              split at h
              · cases h
              · rename_i st4 u4 heq4
                cases u4
                have h4 : st4 = st3 := validateAdditionalProperties_ok_stack hrec heq4
                split at h
                · cases h
                · cases h
                  rw [h4, h3, h1]
                  exact List.dropLast_concat ..
    | arr xs =>
      simp only [validateNoPush] at h
      split at h
      · cases h
      · rename_i st1 u heq1
        cases u
        have h1 : st1 = stack := validateType_ok_stack hrec heq1
        split at h
        · cases h
        · split at h
          · cases h
          · rename_i st3 u3 heq3
            cases u3
            have h3 : st3 = st1 ++ [JValue.arr xs] :=
              validateItemsPhase_ok_stack hrec heq3
            split at h
            · cases h
            · cases h
              rw [h3, h1]
              exact List.dropLast_concat ..
    | str s =>
      simp only [validateNoPush] at h
      split at h
      · cases h
      · rename_i st1 u heq1
        cases u
        have h1 : st1 = stack := validateType_ok_stack hrec heq1
        split at h
        · cases h
        · split at h
          · cases h
          · split at h
            · cases h
            · cases h; exact h1
    | int n =>
      simp only [validateNoPush] at h
      split at h
      · cases h
      · rename_i st1 u heq1
        cases u
        have h1 : st1 = stack := validateType_ok_stack hrec heq1
        split at h
        · cases h
        · split at h
          · cases h
          · split at h
            · cases h
            · cases h; exact h1
    | num q =>
      simp only [validateNoPush] at h
      split at h
      · cases h
      · rename_i st1 u heq1
        cases u
        have h1 : st1 = stack := validateType_ok_stack hrec heq1
        split at h
        · cases h
        · split at h
          · cases h
          · split at h
            · cases h
            · cases h; exact h1
    | bool b =>
      simp only [validateNoPush] at h
      split at h
      · cases h
      · rename_i st1 u heq1
        cases u
        have h1 : st1 = stack := validateType_ok_stack hrec heq1
        split at h
        · cases h
        · split at h
          · cases h
          · split at h
            · cases h
            · cases h; exact h1
    | null =>
      simp only [validateNoPush] at h
      split at h
      · cases h
      · rename_i st1 u heq1
        cases u
        have h1 : st1 = stack := validateType_ok_stack hrec heq1
        split at h
        · cases h
        · split at h
          · cases h
          · split at h
            · cases h
            · cases h; exact h1

/-!
Claim theorems.
-/

/-- C10: for every schema value that is not a mapping (list, string,
number, boolean, or null), the Schema wrapper — and therefore the
entry-point validate on such a schema value — raises a schema defect,
for every document and every fuel budget (in particular before any
document node is inspected). -/
theorem c10_nonMappingSchemaDefect (v : JValue)
    (h : ∀ entries, v ≠ JValue.obj entries) (doc : JValue) (fuel : Nat) :
    validateJson fuel v doc = .error .schemaError := by
  cases v with
  | obj entries => exact absurd rfl (h entries)
  | str s => rfl
  | int n => rfl
  | num q => rfl
  | bool b => rfl
  | null => rfl
  | arr xs => rfl

/-- Witness for C10 at the concrete schema value `[]` (a list). -/
theorem c10_witness :
    validateJson 0 (JValue.arr []) (JValue.int 5) = .error .schemaError :=
  c10_nonMappingSchemaDefect (JValue.arr [])
    (fun _ hc => JValue.noConfusion hc) (JValue.int 5) 0

/-- C9: enum membership is decided by Python value equality, under which
`True == 1`; the schema `{"enum": [1, 2, 3]}` (default type `"any"`)
accepts the document `true`, while `false` (equal to `0`) is rejected,
so the enum check does not distinguish booleans from equal integers. -/
theorem c9_enumEqualityAcceptsBoolean :
    pyEq (JValue.bool true) (JValue.int 1) = true
    ∧ validateJson 3 (JValue.obj [("enum", JValue.arr [JValue.int 1, JValue.int 2, JValue.int 3])])
        (JValue.bool true) = .ok ()
    ∧ validateJson 3 (JValue.obj [("enum", JValue.arr [JValue.int 1, JValue.int 2, JValue.int 3])])
        (JValue.bool false) = .error .validationError :=
  ⟨rfl, rfl, rfl⟩

/-- Counterexample to C3 as stated: the schema
`{"type": ["string", {"type": "number"}]}` ACCEPTS the boolean `true`
(the claim says it is rejected), and the simple names `"number"` and
`"integer"` also accept `true` (the claim says booleans never match
them). -/
theorem c3_counterexample :
    validateJson 6 (JValue.obj [("type", JValue.arr
        [JValue.str "string", JValue.obj [("type", JValue.str "number")]])])
      (JValue.bool true) = .ok ()
    ∧ validateJson 6 (JValue.obj [("type", JValue.str "number")]) (JValue.bool true) = .ok ()
    ∧ validateJson 6 (JValue.obj [("type", JValue.str "integer")]) (JValue.bool true) = .ok () :=
  ⟨rfl, rfl, rfl⟩

/-- C3 (amended): the boolean documents match the simple names
`"boolean"` and `"any"` and — because the host's `bool` is a subclass of
`int`, so `isinstance(True, int)` holds — also `"number"` and
`"integer"`; they never match the other simple names.  The integer `1`
does not match `"boolean"` (that branch is structural).  Consequently
the schema `{"type": ["string", {"type": "number"}]}` accepts `"x"`,
`5`, and also `true`, and rejects `null` with a validation mismatch. -/
theorem c3_booleanMatchesNumericTypes :
    (∀ b, jsonTypeMatch "number" (JValue.bool b) = true
      ∧ jsonTypeMatch "integer" (JValue.bool b) = true
      ∧ jsonTypeMatch "string" (JValue.bool b) = false
      ∧ jsonTypeMatch "object" (JValue.bool b) = false
      ∧ jsonTypeMatch "array" (JValue.bool b) = false
      ∧ jsonTypeMatch "null" (JValue.bool b) = false)
    ∧ validateJson 6 (JValue.obj [("type", JValue.arr
        [JValue.str "string", JValue.obj [("type", JValue.str "number")]])])
        (JValue.str "x") = .ok ()
    ∧ validateJson 6 (JValue.obj [("type", JValue.arr
        [JValue.str "string", JValue.obj [("type", JValue.str "number")]])])
        (JValue.int 5) = .ok ()
    ∧ validateJson 6 (JValue.obj [("type", JValue.arr
        [JValue.str "string", JValue.obj [("type", JValue.str "number")]])])
        (JValue.bool true) = .ok ()
    ∧ validateJson 6 (JValue.obj [("type", JValue.arr
        [JValue.str "string", JValue.obj [("type", JValue.str "number")]])])
        JValue.null = .error .validationError
    ∧ validateJson 6 (JValue.obj [("type", JValue.str "boolean")]) (JValue.int 1)
        = .error .validationError := by
  refine ⟨fun b => ⟨rfl, rfl, rfl, rfl, rfl, rfl⟩, rfl, rfl, rfl, rfl, rfl⟩

/-- Counterexample to C2 as stated: with the type list
`["boolean", "string"]` and the document `"x"`, the `"string"`
alternative matches (the reversed list accepts the document), yet the
check raises a mismatch at the non-matching `"boolean"` alternative
instead of trying the later alternative. -/
theorem c2_counterexample :
    validateJson 6 (JValue.obj [("type", JValue.arr [JValue.str "boolean", JValue.str "string"])])
      (JValue.str "x") = .error .validationError
    ∧ validateJson 6 (JValue.obj [("type", JValue.arr [JValue.str "string", JValue.str "boolean"])])
      (JValue.str "x") = .ok () :=
  ⟨rfl, rfl⟩

/-- C2 (amended): the alternative loop falls through to later
alternatives only for non-matching simple type names other than
`"boolean"`: a `"boolean"` alternative with a non-boolean document
raises immediately, and a nested-schema alternative whose recursive
validation fails propagates that failure immediately, in both cases
regardless of any later alternative; a non-matching other simple name
continues with the remaining alternatives. -/
theorem c2_typeLoopAbortsEarly :
    (∀ (recur : Recur) (stack : List JValue) (rest : List JValue) (obj : JValue),
      (∀ b, obj ≠ JValue.bool b) →
      validateTypeLoop recur stack (JValue.str "boolean" :: rest) obj =
        (stack, .error .validationError))
    ∧ (∀ (recur : Recur) (stack : List JValue) (d : SchemaDict) (rest : List JValue)
        (obj : JValue) (st : List JValue) (e : JError),
      recur stack d obj = (st, .error e) →
      validateTypeLoop recur stack (JValue.obj d :: rest) obj = (st, .error e))
    ∧ (∀ (recur : Recur) (stack : List JValue) (name : String) (rest : List JValue)
        (obj : JValue),
      name ≠ "any" → name ≠ "boolean" → jsonTypeMatch name obj = false →
      validateTypeLoop recur stack (JValue.str name :: rest) obj =
        validateTypeLoop recur stack rest obj) := by
  refine ⟨?_, ?_, ?_⟩
  · intro recur stack rest obj hb
    cases obj with
    | bool b => exact absurd rfl (hb b)
    | str s => rfl
    | int n => rfl
    | num q => rfl
    | null => rfl
    | arr xs => rfl
    | obj oe => rfl
  · intro recur stack d rest obj st e hrec
    have hred : validateTypeLoop recur stack (JValue.obj d :: rest) obj =
        recur stack d obj := rfl
    rw [hred, hrec]
  · intro recur stack name rest obj h1 h2 h3
    simp [validateTypeLoop, h1, h2, h3]

/-- Witness for C2: the first conjunct applied at the counterexample
input. -/
theorem c2_witness :
    validateTypeLoop (validateNoPush 2) []
      [JValue.str "boolean", JValue.str "string"] (JValue.str "x") =
      ([], .error .validationError) :=
  c2_typeLoopAbortsEarly.1 (validateNoPush 2) [] [JValue.str "string"]
    (JValue.str "x") (fun _ hc => JValue.noConfusion hc)

/-- Counterexample to C1 as stated: the schema sets
`properties: {"a": {"type": "integer"}}` and
`additionalProperties: {"type": "string"}`; the document `{"a": 5}`
satisfies the named property schema, yet validation fails because the
value of `"a"` is ALSO checked against the additional-properties schema
(the claim says a covered value is never additionally checked).
Removing the `additionalProperties` keyword makes the same document
pass. -/
theorem c1_counterexample :
    validateJson 6 (JValue.obj
        [("properties", JValue.obj [("a", JValue.obj [("type", JValue.str "integer")])]),
         ("additionalProperties", JValue.obj [("type", JValue.str "string")])])
      (JValue.obj [("a", JValue.int 5)]) = .error .validationError
    ∧ validateJson 6 (JValue.obj
        [("properties", JValue.obj [("a", JValue.obj [("type", JValue.str "integer")])])])
      (JValue.obj [("a", JValue.int 5)]) = .ok () :=
  ⟨rfl, rfl⟩

/-- C1 (amended): when `additionalProperties` is a nested schema, the
additional-properties phase validates EVERY value of the document
object against that schema — including values whose keys are listed in
`properties` — and its outcome does not depend on the `properties`
mapping at all: two schemas with the same (nested-schema)
`additionalProperties` value produce the same phase outcome on the same
document object. -/
theorem c1_additionalPropertiesChecksAllValues (recur : Recur)
    (stack : List JValue) (sd1 sd2 : SchemaDict)
    (oe : List (String × JValue)) (a : SchemaDict)
    (h1 : getAdditionalProperties sd1 = .ok (JValue.obj a))
    (h2 : getAdditionalProperties sd2 = .ok (JValue.obj a)) :
    validateAdditionalProperties recur stack sd1 oe =
      validateAllValues recur a stack oe
    ∧ validateAdditionalProperties recur stack sd2 oe =
      validateAdditionalProperties recur stack sd1 oe := by
  have e1 : validateAdditionalProperties recur stack sd1 oe =
      validateAllValues recur a stack oe := by
    unfold validateAdditionalProperties
    rw [h1]
    rfl
  have e2 : validateAdditionalProperties recur stack sd2 oe =
      validateAllValues recur a stack oe := by
    unfold validateAdditionalProperties
    rw [h2]
    rfl
  exact ⟨e1, e2.trans e1.symm⟩

/-- Witness for C1: the phase on a schema with a named property equals
the all-values sweep with the additional schema. -/
theorem c1_witness :
    validateAdditionalProperties (validateNoPush 3) []
      [("properties", JValue.obj [("a", JValue.obj [])]),
       ("additionalProperties", JValue.obj [("type", JValue.str "string")])]
      [("a", JValue.int 5)] =
    validateAllValues (validateNoPush 3) [("type", JValue.str "string")]
      [] [("a", JValue.int 5)] :=
  (c1_additionalPropertiesChecksAllValues (validateNoPush 3) []
    [("properties", JValue.obj [("a", JValue.obj [])]),
     ("additionalProperties", JValue.obj [("type", JValue.str "string")])]
    [("additionalProperties", JValue.obj [("type", JValue.str "string")])]
    [("a", JValue.int 5)] [("type", JValue.str "string")] rfl rfl).1

/-- C7: when the ancestor stack holds no structural parent (fewer than
two entries — in particular at the document root, where it is empty)
and the schema's `requires` keyword has a non-default value (a
property-name string or a non-empty nested schema), the requires check
raises a validation mismatch, not a schema defect. -/
theorem c7_requiresAtRootIsMismatch (recur : Recur) (stack : List JValue)
    (sd : SchemaDict) (obj : JValue) (rv : JValue)
    (h1 : getRequires sd = .ok rv)
    (h2 : (∃ s, rv = JValue.str s) ∨ (∃ d, rv = JValue.obj d ∧ d ≠ []))
    (h3 : stack.length < 2) :
    validateRequires recur stack sd obj = .error .validationError := by
  unfold validateRequires
  rw [h1]
  rcases h2 with ⟨s, rfl⟩ | ⟨d, rfl, hd⟩
  · have hne : pyEq (JValue.str s) (JValue.obj []) = false := rfl
    simp [hne, h3]
  · have hne : pyEq (JValue.obj d) (JValue.obj []) = false := by
      simp [pyEq, List.length_eq_zero, hd]
    simp [hne, h3]

/-- Witness for C7 at the concrete schema `{"requires": "b"}` with an
empty ancestor stack. -/
theorem c7_witness :
    validateRequires (validateNoPush 2) [] [("requires", JValue.str "b")]
      (JValue.int 1) = .error .validationError :=
  c7_requiresAtRootIsMismatch (validateNoPush 2) []
    [("requires", JValue.str "b")] (JValue.int 1) (JValue.str "b") rfl
    (Or.inl ⟨"b", rfl⟩) (by decide)

/-- C6: when `requires` is a non-empty nested schema and the stack holds
a structural parent (at least two entries), the requires check validates
the parent — the second-from-top stack entry — against that schema on
the truncated stack obtained from the stack at the moment of the check
by removing its last two entries (`self._obj_stack[:-2]`), and only the
sub-validation's outcome (not its stack) is observed. -/
theorem c6_requiresTruncatedStack (recur : Recur) (stack : List JValue)
    (sd : SchemaDict) (obj : JValue) (d : SchemaDict)
    (h1 : getRequires sd = .ok (JValue.obj d)) (h2 : d ≠ [])
    (h3 : 2 ≤ stack.length) :
    validateRequires recur stack sd obj =
      (recur stack.dropLast.dropLast d
        ((stack.get? (stack.length - 2)).getD JValue.null)).2 := by
  unfold validateRequires
  rw [h1]
  have hne : pyEq (JValue.obj d) (JValue.obj []) = false := by
    simp [pyEq, List.length_eq_zero, h2]
  have hlt : ¬ stack.length < 2 := by omega
  simp [hne, hlt]

/-- Witness for C6: a stack of three entries; the parent is the middle
entry and the sub-validation runs on the one-entry truncated stack. -/
theorem c6_witness :
    validateRequires (validateNoPush 3)
      [JValue.null, JValue.obj [("k", JValue.int 1)], JValue.int 7]
      [("requires", JValue.obj [("type", JValue.str "object")])]
      (JValue.int 7) =
    (validateNoPush 3 [JValue.null] [("type", JValue.str "object")]
      (JValue.obj [("k", JValue.int 1)])).2 :=
  c6_requiresTruncatedStack (validateNoPush 3)
    [JValue.null, JValue.obj [("k", JValue.int 1)], JValue.int 7]
    [("requires", JValue.obj [("type", JValue.str "object")])]
    (JValue.int 7) [("type", JValue.str "object")] rfl
    (fun hc => List.noConfusion hc) (by decide)

/-- Counterexample to C8 as stated: validating `{"a": 1}` against
`{"properties": {"a": {"type": "string"}}}` aborts with a mismatch
inside the object frame; the container push of `_validate_no_push` is
not popped (it is not protected by `try/finally`), so the stack after
the aborted call — both for `_validate_no_push` started on the empty
stack and for `_validate` — retains the pushed object instead of being
restored. -/
theorem c8_counterexample :
    validateNoPush 6 []
      [("properties", JValue.obj [("a", JValue.obj [("type", JValue.str "string")])])]
      (JValue.obj [("a", JValue.int 1)]) =
      ([JValue.obj [("a", JValue.int 1)]], .error .validationError)
    ∧ validateV 6 []
      [("properties", JValue.obj [("a", JValue.obj [("type", JValue.str "string")])])]
      (JValue.obj [("a", JValue.int 1)]) =
      ([JValue.obj [("a", JValue.int 1)]], .error .validationError)
    ∧ ([JValue.obj [("a", JValue.int 1)]] : List JValue) ≠ [] :=
  ⟨rfl, rfl, fun hc => List.noConfusion hc⟩

/-- C8 (amended): the ancestor stack is restored after every validation
call that RETURNS (without an exception): both `_validate_no_push` and
`_validate` leave the stack exactly as they found it on success.  (On a
mismatch that aborts inside a pushed container frame the stack is NOT
restored — the container pushes are not exception-safe; see the
counterexample.) -/
theorem c8_stackRestoredOnSuccess :
    (∀ (fuel : Nat) (stack : List JValue) (sd : SchemaDict) (obj : JValue)
      (out : List JValue),
      validateNoPush fuel stack sd obj = (out, Except.ok ()) → out = stack)
    ∧ (∀ (fuel : Nat) (stack : List JValue) (sd : SchemaDict) (obj : JValue)
      (out : List JValue),
      validateV fuel stack sd obj = (out, Except.ok ()) → out = stack) := by
  refine ⟨validateNoPush_ok_stack, ?_⟩
  intro fuel stack sd obj out h
  exact pushValidate_ok_stack
    (fun st sd2 o out2 => validateNoPush_ok_stack fuel st sd2 o out2) h

/-- Witness for C8: the success-restoration facts applied at a concrete
successful validation. -/
theorem c8_witness :
    ([JValue.str "s"] : List JValue) = [JValue.str "s"] :=
  c8_stackRestoredOnSuccess.1 3 [JValue.str "s"] [] JValue.null
    [JValue.str "s"] rfl

/-- The schema `{"minItems": 2}` of claim C4. -/
def minItemsTwoSchema : SchemaDict := [("minItems", JValue.int 2)]

lemma validateType_minItemsTwo (r : Recur) (st : List JValue) (o : JValue) :
    validateType r st minItemsTwoSchema o = (st, .ok ()) := rfl

lemma validateRequires_minItemsTwo (r : Recur) (st : List JValue) (o : JValue) :
    validateRequires r st minItemsTwoSchema o = .ok () := rfl

lemma getProperties_minItemsTwo : getProperties minItemsTwoSchema = .ok [] := rfl

lemma getAdditionalProperties_minItemsTwo :
    getAdditionalProperties minItemsTwoSchema = .ok (JValue.obj []) := rfl

lemma reportUnsupported_minItemsTwo :
    reportUnsupported minItemsTwoSchema = .error .notImplementedError := rfl

/-- When the unsupported-feature gate of a schema fires, no validation
against that schema can succeed: the gate runs after every descent, and
every other exit from `_validate_no_push` is itself an error. -/
lemma validateNoPush_ne_ok_of_gate {sd : SchemaDict} {e : JError}
    (hg : reportUnsupported sd = .error e) :
    ∀ (fuel : Nat) (stack : List JValue) (obj : JValue),
    (validateNoPush fuel stack sd obj).2 ≠ Except.ok () := by
  intro fuel stack obj
  cases fuel with
  | zero => simp [validateNoPush]
  | succ f =>
    simp only [validateNoPush]
    split
    · simp
    · split
      · simp
      · split
        · split
          · simp
          · split
            · simp
            · split
              · simp
              · simp [hg]
        · split
          · simp
          · simp [hg]
        · split
          · simp
          · simp [hg]

/-- C4: validating any document against the schema `{"minItems": 2}`
raises the unsupported-feature error (`NotImplementedError`): given fuel
at least the document size the outcome is exactly that error, and for
EVERY fuel budget the outcome is never success, so the gate fires
regardless of document contents — including a conforming array — and
never lets a document silently pass. -/
theorem c4_minItemsAlwaysUnsupported (obj : JValue) (fuel : Nat) :
    (sizeOf obj ≤ fuel →
      validateJson fuel (JValue.obj minItemsTwoSchema) obj =
        .error .notImplementedError)
    ∧ validateJson fuel (JValue.obj minItemsTwoSchema) obj ≠ .ok () := by
  constructor
  · intro h
    obtain ⟨f, rfl⟩ : ∃ f, fuel = f + 1 :=
      ⟨fuel - 1, by have := JValue.one_le_sizeOf obj; omega⟩
    cases obj with
    | str s => rfl
    | int n => rfl
    | num q => rfl
    | bool b => rfl
    | null => rfl
    | arr xs => rfl
    | obj oe =>
      have hsz : ∀ kv ∈ oe, sizeOf kv.2 ≤ f := by
        intro kv hkv
        have := sizeOf_lt_of_mem_entries hkv
        omega
      have hall := validateAllValues_nil_of f (validateNoPush_nilSchema f) oe
        [JValue.obj oe] hsz
      show validateJson (f + 1) (JValue.obj minItemsTwoSchema) (JValue.obj oe) =
        .error .notImplementedError
      simp only [validateJson, mkSchema, Validator.validate, validateNoPush,
        validateType_minItemsTwo, validateRequires_minItemsTwo,
        getProperties_minItemsTwo, validatePropertiesLoop_nil,
        validateAdditionalProperties, getAdditionalProperties_minItemsTwo,
        List.nil_append]
      rw [hall]
      simp [reportUnsupported_minItemsTwo]
  · show (validateNoPush fuel [] minItemsTwoSchema obj).2 ≠ Except.ok ()
    exact validateNoPush_ne_ok_of_gate reportUnsupported_minItemsTwo fuel [] obj

/-- Witness for C4 at a conforming two-element array. -/
theorem c4_witness :
    validateJson 99 (JValue.obj minItemsTwoSchema)
      (JValue.arr [JValue.int 1, JValue.int 2]) = .error .notImplementedError :=
  (c4_minItemsAlwaysUnsupported (JValue.arr [JValue.int 1, JValue.int 2]) 99).1
    (by decide)

/-- A schema whose only keyword is a tuple `items` list. -/
def itemsOnlySchema (ss : List JValue) : SchemaDict := [("items", JValue.arr ss)]

/-- A tuple `items` schema with `additionalProperties: false`. -/
def itemsNoAddSchema (ss : List JValue) : SchemaDict :=
  [("items", JValue.arr ss), ("additionalProperties", JValue.bool false)]

lemma validateType_itemsOnly (r : Recur) (st : List JValue) (o : JValue)
    (ss : List JValue) : validateType r st (itemsOnlySchema ss) o = (st, .ok ()) := rfl

lemma validateRequires_itemsOnly (r : Recur) (st : List JValue) (o : JValue)
    (ss : List JValue) : validateRequires r st (itemsOnlySchema ss) o = .ok () := rfl

lemma getItems_itemsOnly (ss : List JValue) :
    getItems (itemsOnlySchema ss) = .ok (JValue.arr ss) := rfl

lemma getAdditionalProperties_itemsOnly (ss : List JValue) :
    getAdditionalProperties (itemsOnlySchema ss) = .ok (JValue.obj []) := rfl

lemma reportUnsupported_itemsOnly (ss : List JValue) :
    reportUnsupported (itemsOnlySchema ss) = .ok () := rfl

lemma validateType_itemsNoAdd (r : Recur) (st : List JValue) (o : JValue)
    (ss : List JValue) : validateType r st (itemsNoAddSchema ss) o = (st, .ok ()) := rfl

lemma validateRequires_itemsNoAdd (r : Recur) (st : List JValue) (o : JValue)
    (ss : List JValue) : validateRequires r st (itemsNoAddSchema ss) o = .ok () := rfl

lemma getItems_itemsNoAdd (ss : List JValue) :
    getItems (itemsNoAddSchema ss) = .ok (JValue.arr ss) := rfl

lemma getAdditionalProperties_itemsNoAdd (ss : List JValue) :
    getAdditionalProperties (itemsNoAddSchema ss) = .ok (JValue.bool false) := rfl

lemma pyEq_arr_obj (ss : List JValue) :
    pyEq (JValue.arr ss) (JValue.obj []) = false := rfl

lemma isFalseSentinel_emptyObj : isFalseSentinel (JValue.obj []) = false := rfl

lemma isFalseSentinel_boolFalse : isFalseSentinel (JValue.bool false) = true := rfl

/-- The tuple-items loop succeeds when every pair's schema value wraps
and the element validates successfully at the pushed stack. -/
lemma validateTupleLoop_ok_of (recur : Recur) :
    ∀ (pairs : List (JValue × JValue)) (st : List JValue),
    (∀ p ∈ pairs, ∃ d, mkSchema p.2 = Except.ok d ∧
      recur (st ++ [p.1]) d p.1 = (st ++ [p.1], Except.ok ())) →
    validateTupleLoop recur st pairs = (st, .ok ()) := by
  intro pairs
  induction pairs with
  | nil => intro st _; rfl
  | cons hd tl ih =>
    intro st h
    cases hd with
    | mk x sData =>
      obtain ⟨d, hmk, hval⟩ := h (x, sData) (List.mem_cons_self _ tl)
      have hmk2 : mkSchema sData = Except.ok d := hmk
      have hval2 : recur (st ++ [x]) d x = (st ++ [x], Except.ok ()) := hval
      show validateTupleLoop recur st ((x, sData) :: tl) = (st, .ok ())
      simp only [validateTupleLoop, hmk2, pushValidate, hval2,
        List.dropLast_concat]
      exact ih st (fun p hp => h p (List.mem_cons_of_mem _ hp))

/-- C5: for a tuple `items` schema given by the nested schema dicts
`ds` (length N): a document array of exactly length N whose elements
validate against the positionwise schemas passes; any document array
shorter than N is a validation mismatch; a document array of length
N + 1 whose first N elements validate passes when
`additionalProperties` is absent (the extra element is paired with the
default unconstrained schema `{}`); and with `additionalProperties:
false` any document array of length N + 1 is a validation mismatch. -/
theorem c5_tupleItemsRoundTrip (f : Nat) (ds : List SchemaDict)
    (ys : List JValue) (z : JValue)
    (hlen : ys.length = ds.length) (hz : sizeOf z ≤ f)
    (H1 : ∀ p ∈ ys.zip (ds.map JValue.obj), ∃ d, mkSchema p.2 = Except.ok d ∧
      validateNoPush f ([JValue.arr ys] ++ [p.1]) d p.1 =
        ([JValue.arr ys] ++ [p.1], Except.ok ()))
    (H2 : ∀ p ∈ ys.zip (ds.map JValue.obj), ∃ d, mkSchema p.2 = Except.ok d ∧
      validateNoPush f ([JValue.arr (ys ++ [z])] ++ [p.1]) d p.1 =
        ([JValue.arr (ys ++ [z])] ++ [p.1], Except.ok ())) :
    validateJson (f + 1) (JValue.obj (itemsOnlySchema (ds.map JValue.obj)))
      (JValue.arr ys) = .ok ()
    ∧ (∀ xs : List JValue, xs.length < ds.length →
      validateJson (f + 1) (JValue.obj (itemsOnlySchema (ds.map JValue.obj)))
        (JValue.arr xs) = .error .validationError)
    ∧ validateJson (f + 1) (JValue.obj (itemsOnlySchema (ds.map JValue.obj)))
      (JValue.arr (ys ++ [z])) = .ok ()
    ∧ (∀ xs : List JValue, xs.length = ds.length + 1 →
      validateJson (f + 1) (JValue.obj (itemsNoAddSchema (ds.map JValue.obj)))
        (JValue.arr xs) = .error .validationError) := by
  refine ⟨?_, ?_, ?_, ?_⟩
  · -- exact length: passes
    have hnlt : ¬ (ys.length < (ds.map JValue.obj).length) := by simp [hlen]
    have hbeq : (ys.length != (ds.map JValue.obj).length) = false := by
      simp [hlen]
    have hzf : zipWithFill ys (ds.map JValue.obj) (JValue.obj []) =
        ys.zip (ds.map JValue.obj) := by
      unfold zipWithFill
      rw [show ys.length - (ds.map JValue.obj).length = 0 by simp [hlen],
        List.replicate_zero, List.append_nil]
    have hloop := validateTupleLoop_ok_of (validateNoPush f)
      (ys.zip (ds.map JValue.obj)) [JValue.arr ys] H1
    show (validateNoPush (f + 1) [] (itemsOnlySchema (ds.map JValue.obj))
      (JValue.arr ys)).2 = .ok ()
    simp only [validateNoPush, validateType_itemsOnly,
      validateRequires_itemsOnly, List.nil_append, validateItemsPhase,
      getItems_itemsOnly, pyEq_arr_obj, getAdditionalProperties_itemsOnly,
      isFalseSentinel_emptyObj, Bool.and_false, hzf, hbeq, hloop,
      reportUnsupported_itemsOnly, if_neg hnlt, Bool.false_eq_true,
      if_false]
  · -- shorter: mismatch
    intro xs hxs
    have hlt : xs.length < (ds.map JValue.obj).length := by simpa using hxs
    show (validateNoPush (f + 1) [] (itemsOnlySchema (ds.map JValue.obj))
      (JValue.arr xs)).2 = .error .validationError
    simp only [validateNoPush, validateType_itemsOnly,
      validateRequires_itemsOnly, List.nil_append, validateItemsPhase,
      getItems_itemsOnly, pyEq_arr_obj, Bool.false_eq_true, if_false,
      if_pos hlt]
  · -- longer, additionalProperties absent: passes
    have hnlt : ¬ ((ys ++ [z]).length < (ds.map JValue.obj).length) := by
      simp [hlen]
    have hfill : (ys ++ [z]).length - (ds.map JValue.obj).length = 1 := by
      simp [hlen]
    have hzf : zipWithFill (ys ++ [z]) (ds.map JValue.obj) (JValue.obj []) =
        ys.zip (ds.map JValue.obj) ++ [(z, JValue.obj [])] := by
      unfold zipWithFill
      rw [hfill, show List.replicate 1 (JValue.obj []) = [JValue.obj []] from rfl,
        List.zip_append (by simp [hlen])]
      rfl
    have Hc : ∀ p ∈ ys.zip (ds.map JValue.obj) ++ [(z, JValue.obj [])],
        ∃ d, mkSchema p.2 = Except.ok d ∧
        validateNoPush f ([JValue.arr (ys ++ [z])] ++ [p.1]) d p.1 =
          ([JValue.arr (ys ++ [z])] ++ [p.1], Except.ok ()) := by
      intro p hp
      rcases List.mem_append.mp hp with hp | hp
      · exact H2 p hp
      · have hpz : p = (z, JValue.obj []) := by simpa using hp
        subst hpz
        exact ⟨[], rfl,
          validateNoPush_nilSchema f z ([JValue.arr (ys ++ [z])] ++ [z]) hz⟩
    have hloop := validateTupleLoop_ok_of (validateNoPush f)
      (ys.zip (ds.map JValue.obj) ++ [(z, JValue.obj [])])
      [JValue.arr (ys ++ [z])] Hc
    show (validateNoPush (f + 1) [] (itemsOnlySchema (ds.map JValue.obj))
      (JValue.arr (ys ++ [z]))).2 = .ok ()
    simp only [validateNoPush, validateType_itemsOnly,
      validateRequires_itemsOnly, List.nil_append, validateItemsPhase,
      getItems_itemsOnly, pyEq_arr_obj, getAdditionalProperties_itemsOnly,
      isFalseSentinel_emptyObj, Bool.and_false, hzf, hloop,
      reportUnsupported_itemsOnly, if_neg hnlt, Bool.false_eq_true,
      if_false]
  · -- longer, additionalProperties false: mismatch
    intro xs hxs
    have hnlt : ¬ (xs.length < (ds.map JValue.obj).length) := by
      simp [hxs]
    have hbeq : (xs.length != (ds.map JValue.obj).length) = true := by
      simp [hxs]
    show (validateNoPush (f + 1) [] (itemsNoAddSchema (ds.map JValue.obj))
      (JValue.arr xs)).2 = .error .validationError
    simp only [validateNoPush, validateType_itemsNoAdd,
      validateRequires_itemsNoAdd, List.nil_append, validateItemsPhase,
      getItems_itemsNoAdd, pyEq_arr_obj, getAdditionalProperties_itemsNoAdd,
      isFalseSentinel_boolFalse, hbeq, Bool.and_true, Bool.false_eq_true,
      if_false, if_neg hnlt, if_true]

/-- Witness for C5 with the concrete tuple schema
`[{"type": "integer"}, {"type": "string"}]` (N = 2). -/
theorem c5_witness :
    validateJson 7 (JValue.obj (itemsOnlySchema
        [JValue.obj [("type", JValue.str "integer")],
         JValue.obj [("type", JValue.str "string")]]))
      (JValue.arr [JValue.int 1, JValue.str "a"]) = .ok ()
    ∧ validateJson 7 (JValue.obj (itemsOnlySchema
        [JValue.obj [("type", JValue.str "integer")],
         JValue.obj [("type", JValue.str "string")]]))
      (JValue.arr [JValue.int 1]) = .error .validationError
    ∧ validateJson 7 (JValue.obj (itemsOnlySchema
        [JValue.obj [("type", JValue.str "integer")],
         JValue.obj [("type", JValue.str "string")]]))
      (JValue.arr [JValue.int 1, JValue.str "a", JValue.null]) = .ok ()
    ∧ validateJson 7 (JValue.obj (itemsNoAddSchema
        [JValue.obj [("type", JValue.str "integer")],
         JValue.obj [("type", JValue.str "string")]]))
      (JValue.arr [JValue.int 1, JValue.str "a", JValue.null]) =
        .error .validationError := by
  have hzip : (([JValue.int 1, JValue.str "a"] : List JValue).zip
      (([[("type", JValue.str "integer")], [("type", JValue.str "string")]] :
        List SchemaDict).map JValue.obj)) =
      [(JValue.int 1, JValue.obj [("type", JValue.str "integer")]),
       (JValue.str "a", JValue.obj [("type", JValue.str "string")])] := rfl
  have H1 : ∀ p ∈ ([JValue.int 1, JValue.str "a"] : List JValue).zip
      (([[("type", JValue.str "integer")], [("type", JValue.str "string")]] :
        List SchemaDict).map JValue.obj),
      ∃ d, mkSchema p.2 = Except.ok d ∧
      validateNoPush 6
        ([JValue.arr [JValue.int 1, JValue.str "a"]] ++ [p.1]) d p.1 =
        ([JValue.arr [JValue.int 1, JValue.str "a"]] ++ [p.1], Except.ok ()) := by
    intro p hp
    rw [hzip] at hp
    simp only [List.mem_cons, List.not_mem_nil, or_false] at hp
    rcases hp with rfl | rfl
    · exact ⟨_, rfl, rfl⟩
    · exact ⟨_, rfl, rfl⟩
  have H2 : ∀ p ∈ ([JValue.int 1, JValue.str "a"] : List JValue).zip
      (([[("type", JValue.str "integer")], [("type", JValue.str "string")]] :
        List SchemaDict).map JValue.obj),
      ∃ d, mkSchema p.2 = Except.ok d ∧
      validateNoPush 6
        ([JValue.arr ([JValue.int 1, JValue.str "a"] ++ [JValue.null])] ++ [p.1]) d p.1 =
        ([JValue.arr ([JValue.int 1, JValue.str "a"] ++ [JValue.null])] ++ [p.1],
          Except.ok ()) := by
    intro p hp
    rw [hzip] at hp
    simp only [List.mem_cons, List.not_mem_nil, or_false] at hp
    rcases hp with rfl | rfl
    · exact ⟨_, rfl, rfl⟩
    · exact ⟨_, rfl, rfl⟩
  have h := c5_tupleItemsRoundTrip 6
    [[("type", JValue.str "integer")], [("type", JValue.str "string")]]
    [JValue.int 1, JValue.str "a"] JValue.null rfl (by decide) H1 H2
  exact ⟨h.1, h.2.1 [JValue.int 1] (by decide), h.2.2.1,
    h.2.2.2 [JValue.int 1, JValue.str "a", JValue.null] (by decide)⟩
